import Mathlib

/-!
Verification of the financial-report-parser repository.

Shallow embedding of the page subsetter, the page-text prober, the
reference-expansion page merging, the financial-model processing loop,
the validation loop with its aggregation, the LabeledValue default
machinery, and the unit-conversion helper, with theorems settling the
frozen claims about them.

Modelling conventions: a PDF document is a list of page contents
(page texts for the prober); 1-based page numbers as in the source;
fallible Python functions that raise become `Except String`; Python
floats become rationals.
-/

namespace FinReport

/-! ## Page subsetter (src/agents.py, extract_pages_range_to_base64_with_mapping)

The source sorts and deduplicates the 1-based page list
(`unique_pages = sorted(set(page_numbers))`), raises if it is empty,
then walks it with `enumerate(unique_pages, start=1)`, raising on any
page outside `1..total_pages` and recording `page_mapping[new_idx] = orig_page`.
We model the page mapping as an association list of
(renumbered index, original page) pairs, in insertion order. -/

/-- The deduplicating sort `sorted(set(page_numbers))` of the source: the
distinct elements in increasing order. -/
def uniquePages (page_numbers : List ℕ) : List ℕ :=
  page_numbers.toFinset.sort (· ≤ ·)

/-- The `for new_idx, orig_page in enumerate(unique_pages, start=1)` loop of
the source: raises on the first out-of-range page, otherwise records
`(new_idx, orig_page)` pairs in order. -/
def buildMapping (total_pages : ℕ) : List ℕ → ℕ → Except String (List (ℕ × ℕ))
  | [], _ => .ok []
  | p :: rest, idx =>
      if p < 1 ∨ total_pages < p then
        .error "page out of range"
      else
        match buildMapping total_pages rest (idx + 1) with
        | .error e => .error e
        | .ok m => .ok ((idx, p) :: m)

/-- The subsetter `extract_pages_range_to_base64_with_mapping`, restricted to
the data it computes about page numbers: dedup + sort, the emptiness check,
and the renumbering loop producing `page_mapping`. -/
def extract_pages_range_to_base64_with_mapping (total_pages : ℕ)
    (page_numbers : List ℕ) : Except String (List (ℕ × ℕ)) :=
  let unique := uniquePages page_numbers
  if unique = [] then .error "page_numbers must not be empty"
  else buildMapping total_pages unique 1

/-! ## Page-text prober (src/gemini.py and src/src/gemini.py, check_scanned_pages)

A document is a list of per-page extracted text layers (the source's
`page.get_text("text") or ""`, so a missing text layer is the empty
string). The source walks the requested 1-based pages in order, raises on
the first out-of-range page, and records
`results[pg] = (len(text.strip()) < text_threshold)`; we model the results
dict as an association list in insertion order. -/

/-- Text layer of 1-based page `pg` of the document. -/
def pageText (doc : List String) (pg : ℕ) : String :=
  doc.getD (pg - 1) ""

/-- The per-page loop of `check_scanned_pages`. -/
def checkScannedGo (doc : List String) (text_threshold : ℕ) :
    List ℕ → Except String (List (ℕ × Bool))
  | [] => .ok []
  | pg :: rest =>
      if pg < 1 ∨ doc.length < pg then
        .error "page out of range"
      else
        match checkScannedGo doc text_threshold rest with
        | .error e => .error e
        | .ok r =>
            .ok ((pg, decide ((pageText doc pg).trim.length < text_threshold)) :: r)

/-- The default value of the `text_threshold` argument in the source. -/
def default_text_threshold : ℕ := 1

/-- The prober `check_scanned_pages`: marks a page `true` when its stripped
text layer is shorter than the threshold; `pages_to_check = None` defaults
to every page of the document. -/
def check_scanned_pages (doc : List String) (pages_to_check : Option (List ℕ))
    (text_threshold : ℕ) : Except String (List (ℕ × Bool)) :=
  checkScannedGo doc text_threshold
    (pages_to_check.getD (List.range' 1 doc.length))

/-! ## Reference-expansion page merging (src/langchain_agents.py, PDFPageExtractionTool._run)

State transition of `agent_state.pages_extracted` performed by one call of
the tool. The source defaults `first_n_pages` to 5 when neither argument is
given, takes the requested pages when `page_numbers` is truthy (a non-empty
list), else the range `1..min(first_n_pages, total_pages)` on a first call,
unions them with the pages already extracted, sorts, and — unless the
union is empty, in which case it returns an error and leaves the state
unchanged — stores the in-range pages of the union as the new
`pages_extracted` (out-of-range pages are skipped with a logged error). -/

/-- The `first_n_pages = 5` defaulting at the top of
`PDFPageExtractionTool._run`. -/
def effFirstN (page_numbers : Option (List ℕ)) (first_n_pages : Option ℕ) :
    Option ℕ :=
  if page_numbers = none ∧ first_n_pages = none then some 5 else first_n_pages

/-- The `pages_to_add_this_run` set of `PDFPageExtractionTool._run`: the
requested pages when `page_numbers` is a non-empty list, else the initial
range `1..min(first_n_pages, total_pages)` when this is the first call and
`first_n_pages` is set, else nothing. -/
def pagesToAddThisRun (total_pages : ℕ) (current : Finset ℕ)
    (page_numbers : Option (List ℕ)) (first_n : Option ℕ) : Finset ℕ :=
  if page_numbers.getD [] ≠ [] then (page_numbers.getD []).toFinset
  else if first_n ≠ none ∧ current = ∅ then
    (List.range' 1 (min (first_n.getD 0) total_pages)).toFinset
  else ∅

/-- The `all_pages_to_extract_list` of `PDFPageExtractionTool._run`: the
union of the already-extracted pages and this run's additions, sorted. -/
def allPagesToExtractList (total_pages : ℕ) (pages_extracted : List ℕ)
    (page_numbers : Option (List ℕ)) (first_n_pages : Option ℕ) : List ℕ :=
  (pages_extracted.toFinset ∪
      pagesToAddThisRun total_pages pages_extracted.toFinset page_numbers
        (effFirstN page_numbers first_n_pages)).sort (· ≤ ·)

/-- One call of `PDFPageExtractionTool._run`, as the transition on the
`pages_extracted` state; returns the new state. When the merged list is
empty the source returns an error and leaves the state unchanged;
otherwise the in-range pages of the merged list (the source's
`actual_extracted_pages`) become the new state. -/
def PDFPageExtractionTool_run (total_pages : ℕ) (pages_extracted : List ℕ)
    (page_numbers : Option (List ℕ)) (first_n_pages : Option ℕ) : List ℕ :=
  if allPagesToExtractList total_pages pages_extracted page_numbers first_n_pages
      = [] then
    pages_extracted
  else
    (allPagesToExtractList total_pages pages_extracted page_numbers
        first_n_pages).filter
      fun p => decide (1 ≤ p ∧ p ≤ total_pages)

/-! ## Validation loop and aggregation (src/agents.py, validate_extracted_data)

The loop walks the `(model_name, result)` pairs. A `None` result is
skipped. Otherwise the Gemini validation call either yields a
`ValidationResult` (whose `model_name` the source overwrites with the
current model's name) or raises, in which case a synthetic failed result
with a single system-error entry is appended and the loop continues. We
model each model's call outcome as `Option (Except String ValidationResult)`
(`none` = the result to validate was `None`). At the end, if any results
were collected, they are aggregated; otherwise the function returns
`None`. The Gemini-unavailable `continue` and the page-extraction guards
before the loop are outside the claims and not modelled. -/

structure ValidationResult where
  model_name : String
  is_valid : Bool
  errors : List String
  warnings : List String
  confidence_score : ℚ
  notes : Option String
deriving DecidableEq

structure OverallValidationResult where
  validation_results : List ValidationResult
  overall_valid : Bool
  total_errors : ℕ
  total_warnings : ℕ
  average_confidence : ℚ
deriving DecidableEq

/-- The synthetic failed `ValidationResult` the source appends when
validating a model raises an error. -/
def syntheticFailure (model_name msg : String) : ValidationResult :=
  { model_name := model_name
    is_valid := false
    errors := ["error during validation: " ++ msg]
    warnings := []
    confidence_score := 0
    notes := some "technical error during validation" }

/-- The `for model_name, result in model_results.items()` loop of
`validate_extracted_data`, collecting the `validation_results` list. -/
def collectValidationResults :
    List (String × Option (Except String ValidationResult)) →
      List ValidationResult
  | [] => []
  | (_, none) :: rest => collectValidationResults rest
  | (name, some (.ok vr)) :: rest =>
      { vr with model_name := name } :: collectValidationResults rest
  | (name, some (.error e)) :: rest =>
      syntheticFailure name e :: collectValidationResults rest

/-- The validator `validate_extracted_data`: collect per-model results,
then aggregate them into an `OverallValidationResult` when any were
collected. -/
def validate_extracted_data
    (model_results : List (String × Option (Except String ValidationResult))) :
    Option OverallValidationResult :=
  let validation_results := collectValidationResults model_results
  if validation_results.isEmpty then none
  else some
    { validation_results := validation_results
      overall_valid := validation_results.all (fun vr => vr.is_valid)
      total_errors := (validation_results.map fun vr => vr.errors.length).sum
      total_warnings := (validation_results.map fun vr => vr.warnings.length).sum
      average_confidence :=
        (validation_results.map fun vr => vr.confidence_score).sum /
          (validation_results.length : ℚ) }

/-! ## LabeledValue defaults (src/src/models/base.py)

`LabeledValue` carries a value with the pages and labels justifying it.
`BaseModelWithDefault.replace_none_with_default` runs on every field before
validation: a `None` value of a field whose declared type is
`LabeledValue` (or `Optional[LabeledValue]`) is replaced by a fresh default
`LabeledValue`; other fields keep `None`; non-`None` values pass through. -/

structure LabeledValue where
  value : ℚ
  source_page : List ℕ
  source_label : List String
  reason : String
deriving DecidableEq

/-- The factory `make_default_lv` of the source. -/
def make_default_lv : LabeledValue :=
  { value := 0, source_page := [], source_label := [], reason := "default" }

/-- The validator `replace_none_with_default` of `BaseModelWithDefault`,
with the result of the source's field-type test `_is_labeled_value_type`
passed as the boolean `is_lv_field`. -/
def replace_none_with_default (is_lv_field : Bool) (v : Option LabeledValue) :
    Option LabeledValue :=
  match v with
  | some x => some x
  | none => if is_lv_field then some make_default_lv else none

/-! ## Unit conversion (src/src/models/base.py, convert_to_thousand) -/

/-- The converter `convert_to_thousand`: `None` stays `None`; a value is
returned as-is exactly when `is_thousand is True` (the identity check of
the source, modelled by `some true`); every other flag — `False` or
`None` — divides by 1000. -/
def convert_to_thousand (value : Option ℚ) (is_thousand : Option Bool) :
    Option ℚ :=
  match value with
  | none => none
  | some v => if is_thousand = some true then some v else some (v / 1000)

/-! ## Financial-model processing (src/agents.py, process_financial_models)

The statement-location analysis assigns each statement name a
`found` flag and page numbers. `process_financial_models` first collects
the relevant pages of every found required statement and returns early
(`None`) when there are none; otherwise it loops over the model configs:
it computes the list of required statements not found, prints a warning
when that list is non-empty, and then attempts the Gemini extraction for
the model regardless; on success `results[name]` is the parsed value, on
an exception it is `None`; when no Gemini client can be set up the loop
`continue`s without an entry. The Gemini call is abstracted as an oracle
from the model name to `Except String α`; client availability as a
boolean. Each loop entry records (model name, missing statements warned
about, result). -/

structure StatementInfo where
  found : Bool
  page_numbers : List ℕ
deriving DecidableEq

/-- Required statements of a model that the analysis did not find
(the `missing_statements` list built in the loop). -/
def missingStatements (analysis : String → StatementInfo)
    (required : List String) : List String :=
  required.filter fun s => !(analysis s).found

/-- The per-model loop of `process_financial_models`. -/
def processModelsLoop {α : Type} (analysis : String → StatementInfo)
    (client_ok : Bool) (gemini : String → Except String α) :
    List (String × List String) → List (String × List String × Option α)
  | [] => []
  | (name, required) :: rest =>
      let missing := missingStatements analysis required
      if client_ok then
        match gemini name with
        | .ok r => (name, missing, some r) ::
            processModelsLoop analysis client_ok gemini rest
        | .error _ => (name, missing, none) ::
            processModelsLoop analysis client_ok gemini rest
      else processModelsLoop analysis client_ok gemini rest

/-- Pages of every found required statement with a non-empty page list
(the `all_relevant_pages` set of the source). -/
def relevantPages (analysis : String → StatementInfo)
    (models_config : List (String × List String)) : Finset ℕ :=
  ((models_config.foldl (fun acc m => acc ++ m.2) []).filter fun s =>
      (analysis s).found && !(analysis s).page_numbers.isEmpty).foldl
    (fun acc s => acc ∪ (analysis s).page_numbers.toFinset) ∅

/-- The driver `process_financial_models`: early `None` when no relevant
pages were found, otherwise the per-model loop results. -/
def process_financial_models {α : Type} (analysis : String → StatementInfo)
    (client_ok : Bool) (gemini : String → Except String α)
    (models_config : List (String × List String)) :
    Option (List (String × List String × Option α)) :=
  if relevantPages analysis models_config = ∅ then none
  else some (processModelsLoop analysis client_ok gemini models_config)

/-- A statement-location analysis in which only the balance sheet is found:
the scenario of the claims about models whose required statement is
missing. -/
def analysisMissingItems : String → StatementInfo := fun s =>
  if s = "individual_balance_sheet" then { found := true, page_numbers := [4, 5] }
  else { found := false, page_numbers := [] }

/-- A two-model configuration: the first model also requires the (absent)
important accounting items, the second only the balance sheet. -/
def configTwoModels : List (String × List String) :=
  [("cash_and_equivalents",
      ["individual_balance_sheet", "important_accounting_items"]),
   ("total_liabilities", ["individual_balance_sheet"])]

/-- A Gemini oracle whose extraction always succeeds with the value 7. -/
def geminiAlwaysOk : String → Except String ℕ := fun _ => .ok 7

/-! ## Reference-discovery-and-expansion loop -/

structure ExtractionRound where
  is_complete : Bool
  referenced_pages : Finset ℕ

/-- Modelled from the spec: the driver of the reference-discovery-and-expansion
loop. In the source the loop is carried out by the LLM agent following the
system prompt of `FinancialReportAnalysisAgent._setup_agent` ("repeat until
the model's data is complete"), with each round implemented by
`EnhancedFinancialDataExtractionTool._run`; no loop driver or retry counter
appears in the source itself, so the driver is modelled from the spec's
words: each round runs the extractor on the active page set; if it reports
complete the loop stops with the result flagged complete; otherwise the
referenced pages are merged into the active set and the extraction is
retried, for at most `budget` expansion rounds; when the budget is
exhausted the current result is accepted as-is and flagged incomplete.
Returns (final page set, completion flag, expansion rounds performed). -/
def referenceExpansionLoop (extract : Finset ℕ → ExtractionRound) :
    ℕ → Finset ℕ → Finset ℕ × Bool × ℕ
  | budget, pages =>
      if (extract pages).is_complete then (pages, true, 0)
      else
        match budget with
        | 0 => (pages, false, 0)
        | b + 1 =>
            let step :=
              referenceExpansionLoop extract b
                (pages ∪ (extract pages).referenced_pages)
            (step.1, step.2.1, step.2.2 + 1)

/-- An extractor that never reports complete and always references page 9:
exercises budget exhaustion of the expansion loop. -/
def extractNeverDone : Finset ℕ → ExtractionRound := fun _ =>
  { is_complete := false, referenced_pages := {9} }

/-! ## Helper lemmas -/

lemma buildMapping_ok (total_pages : ℕ) (l : List ℕ) (i : ℕ)
    (h : ∀ p ∈ l, 1 ≤ p ∧ p ≤ total_pages) :
    buildMapping total_pages l i = .ok ((List.range' i l.length).zip l) := by
  induction l generalizing i with
  | nil => simp [buildMapping]
  | cons p rest ih =>
      have hp := h p (List.mem_cons_self p rest)
      have hrest : ∀ q ∈ rest, 1 ≤ q ∧ q ≤ total_pages :=
        fun q hq => h q (List.mem_cons_of_mem p hq)
      have hnot : ¬(p < 1 ∨ total_pages < p) := by
        push_neg
        exact ⟨hp.1, hp.2⟩
      simp only [buildMapping, if_neg hnot, ih (i + 1) hrest]
      simp [List.range'_succ, List.zip]

lemma buildMapping_error (total_pages : ℕ) (l : List ℕ) (i : ℕ)
    (h : ∃ p ∈ l, p < 1 ∨ total_pages < p) :
    ∃ e, buildMapping total_pages l i = .error e := by
  induction l generalizing i with
  | nil => simp at h
  | cons p rest ih =>
      by_cases hp : p < 1 ∨ total_pages < p
      · refine ⟨"page out of range", ?_⟩
        unfold buildMapping
        rw [if_pos hp]
      · obtain ⟨q, hq, hqout⟩ := h
        rcases List.mem_cons.mp hq with rfl | hq'
        · exact absurd hqout hp
        · obtain ⟨e, he⟩ := ih (i + 1) ⟨q, hq', hqout⟩
          refine ⟨e, ?_⟩
          unfold buildMapping
          rw [if_neg hp, he]

lemma uniquePages_sorted_lt (page_numbers : List ℕ) :
    (uniquePages page_numbers).Sorted (· < ·) :=
  Finset.sort_sorted_lt _

lemma mem_uniquePages (page_numbers : List ℕ) (p : ℕ) :
    p ∈ uniquePages page_numbers ↔ p ∈ page_numbers := by
  simp [uniquePages]

lemma uniquePages_toFinset (page_numbers : List ℕ) :
    (uniquePages page_numbers).toFinset = page_numbers.toFinset := by
  ext p
  simp [mem_uniquePages]

lemma uniquePages_nodup (page_numbers : List ℕ) :
    (uniquePages page_numbers).Nodup :=
  Finset.sort_nodup _ _

lemma uniquePages_length (page_numbers : List ℕ) :
    (uniquePages page_numbers).length = page_numbers.toFinset.card :=
  Finset.length_sort _

lemma checkScannedGo_ok (doc : List String) (text_threshold : ℕ)
    (pages : List ℕ) (h : ∀ pg ∈ pages, 1 ≤ pg ∧ pg ≤ doc.length) :
    checkScannedGo doc text_threshold pages =
      .ok (pages.map fun pg =>
        (pg, decide ((pageText doc pg).trim.length < text_threshold))) := by
  induction pages with
  | nil => simp [checkScannedGo]
  | cons pg rest ih =>
      have hpg := h pg (List.mem_cons_self pg rest)
      have hnot : ¬(pg < 1 ∨ doc.length < pg) := by
        push_neg
        exact ⟨hpg.1, hpg.2⟩
      have hrest := ih fun q hq => h q (List.mem_cons_of_mem pg hq)
      simp only [checkScannedGo, if_neg hnot, hrest, List.map_cons]

lemma checkScannedGo_error (doc : List String) (text_threshold : ℕ)
    (pages : List ℕ) (h : ∃ pg ∈ pages, pg < 1 ∨ doc.length < pg) :
    ∃ e, checkScannedGo doc text_threshold pages = .error e := by
  induction pages with
  | nil => simp at h
  | cons pg rest ih =>
      by_cases hpg : pg < 1 ∨ doc.length < pg
      · refine ⟨"page out of range", ?_⟩
        unfold checkScannedGo
        rw [if_pos hpg]
      · obtain ⟨q, hq, hqout⟩ := h
        rcases List.mem_cons.mp hq with rfl | hq'
        · exact absurd hqout hpg
        · obtain ⟨e, he⟩ := ih ⟨q, hq', hqout⟩
          refine ⟨e, ?_⟩
          unfold checkScannedGo
          rw [if_neg hpg, he]

lemma string_eq_empty_iff_length (s : String) : s = "" ↔ s.length = 0 := by
  constructor
  · rintro rfl
    rfl
  · intro h
    cases s with
    | mk data =>
        cases data with
        | nil => rfl
        | cons c cs => simp [String.length] at h

lemma mem_allPagesToExtractList (total_pages : ℕ) (pages_extracted : List ℕ)
    (page_numbers : Option (List ℕ)) (first_n_pages : Option ℕ) (q : ℕ) :
    q ∈ allPagesToExtractList total_pages pages_extracted page_numbers
        first_n_pages ↔
      q ∈ pages_extracted.toFinset ∪
        pagesToAddThisRun total_pages pages_extracted.toFinset page_numbers
          (effFirstN page_numbers first_n_pages) := by
  simp [allPagesToExtractList]

lemma collect_append
    (xs ys : List (String × Option (Except String ValidationResult))) :
    collectValidationResults (xs ++ ys) =
      collectValidationResults xs ++ collectValidationResults ys := by
  induction xs with
  | nil => rfl
  | cons e rest ih =>
      obtain ⟨n, o⟩ := e
      match o with
      | none => simpa [collectValidationResults] using ih
      | some (.ok vr) => simp [collectValidationResults, ih]
      | some (.error msg) => simp [collectValidationResults, ih]

lemma processModelsLoop_clientOk {α : Type} (analysis : String → StatementInfo)
    (gemini : String → Except String α)
    (models_config : List (String × List String)) :
    processModelsLoop analysis true gemini models_config =
      models_config.map fun m =>
        (m.1, missingStatements analysis m.2,
          match gemini m.1 with
          | .ok r => some r
          | .error _ => none) := by
  induction models_config with
  | nil => rfl
  | cons m rest ih =>
      obtain ⟨name, required⟩ := m
      cases hg : gemini name <;>
        simp [processModelsLoop, hg, ih]

/-! ## Claim theorems -/

/-- C1: for every non-empty list of valid original page numbers given to the
page subsetter, the returned page mapping is a bijection from the renumbered
indices onto the deduplicated input set: the renumbered indices are exactly
`1..|S|` (contiguous from 1, without duplicates), the original page numbers
strictly increase with renumbered index, and no original page is mapped
from two renumbered indices. -/
theorem subsetter_mapping_bijection (total_pages : ℕ) (page_numbers : List ℕ)
    (hne : page_numbers ≠ [])
    (hval : ∀ p ∈ page_numbers, 1 ≤ p ∧ p ≤ total_pages) :
    ∃ m, extract_pages_range_to_base64_with_mapping total_pages page_numbers
        = .ok m ∧
      m.length = page_numbers.toFinset.card ∧
      m.map Prod.fst = List.range' 1 page_numbers.toFinset.card ∧
      (m.map Prod.fst).Nodup ∧
      (m.map Prod.snd).Sorted (· < ·) ∧
      (m.map Prod.snd).Nodup ∧
      (m.map Prod.snd).toFinset = page_numbers.toFinset := by
  have hmem : ∀ p ∈ uniquePages page_numbers, 1 ≤ p ∧ p ≤ total_pages :=
    fun p hp => hval p ((mem_uniquePages page_numbers p).mp hp)
  have hne' : uniquePages page_numbers ≠ [] := by
    obtain ⟨p, hp⟩ := List.exists_mem_of_ne_nil page_numbers hne
    intro h0
    have hpu := (mem_uniquePages page_numbers p).mpr hp
    rw [h0] at hpu
    simp at hpu
  have hlen : (uniquePages page_numbers).length = page_numbers.toFinset.card :=
    uniquePages_length page_numbers
  have hok := buildMapping_ok total_pages (uniquePages page_numbers) 1 hmem
  have hlenr : (List.range' 1 (uniquePages page_numbers).length).length =
      (uniquePages page_numbers).length := by simp
  refine ⟨(List.range' 1 (uniquePages page_numbers).length).zip
      (uniquePages page_numbers), ?_, ?_, ?_, ?_, ?_, ?_, ?_⟩
  · rw [extract_pages_range_to_base64_with_mapping]
    simp only [if_neg hne']
    exact hok
  · rw [List.length_zip, hlenr, hlen, min_self]
  · rw [List.map_fst_zip _ _ (le_of_eq hlenr), hlen]
  · rw [List.map_fst_zip _ _ (le_of_eq hlenr)]
    exact List.nodup_range' _ _
  · rw [List.map_snd_zip _ _ (ge_of_eq hlenr)]
    exact uniquePages_sorted_lt page_numbers
  · rw [List.map_snd_zip _ _ (ge_of_eq hlenr)]
    exact uniquePages_nodup page_numbers
  · rw [List.map_snd_zip _ _ (ge_of_eq hlenr)]
    exact uniquePages_toFinset page_numbers

/-- Witness for C1 at `total_pages = 5`, `page_numbers = [3, 1, 3]`. -/
theorem subsetter_mapping_bijection_witness :
    ∃ m, extract_pages_range_to_base64_with_mapping 5 [3, 1, 3] = .ok m ∧
      m.length = ([3, 1, 3] : List ℕ).toFinset.card ∧
      m.map Prod.fst = List.range' 1 ([3, 1, 3] : List ℕ).toFinset.card ∧
      (m.map Prod.fst).Nodup ∧
      (m.map Prod.snd).Sorted (· < ·) ∧
      (m.map Prod.snd).Nodup ∧
      (m.map Prod.snd).toFinset = ([3, 1, 3] : List ℕ).toFinset :=
  subsetter_mapping_bijection 5 [3, 1, 3] (by decide) (by decide)

/-- C7: any input to the page subsetter or the page-text prober containing a
page number outside `[1, total_pages]` makes the operation raise an
out-of-range error, and a subsetter input that is empty after deduplication
raises an empty-selection error instead of returning a result. -/
theorem out_of_range_and_empty_errors (doc : List String) (pages : List ℕ)
    (p : ℕ) (text_threshold : ℕ) (hp : p ∈ pages)
    (hout : p < 1 ∨ doc.length < p) :
    (∃ e, extract_pages_range_to_base64_with_mapping doc.length pages
        = .error e) ∧
    (∃ e, check_scanned_pages doc (some pages) text_threshold = .error e) ∧
    (∀ qs : List ℕ, uniquePages qs = [] →
      ∃ e, extract_pages_range_to_base64_with_mapping doc.length qs
        = .error e) := by
  refine ⟨?_, ?_, ?_⟩
  · have hpu : p ∈ uniquePages pages := (mem_uniquePages pages p).mpr hp
    have hne' : uniquePages pages ≠ [] := by
      intro h0
      rw [h0] at hpu
      simp at hpu
    obtain ⟨e, he⟩ := buildMapping_error doc.length (uniquePages pages) 1
      ⟨p, hpu, hout⟩
    refine ⟨e, ?_⟩
    rw [extract_pages_range_to_base64_with_mapping]
    simp only [if_neg hne']
    exact he
  · obtain ⟨e, he⟩ := checkScannedGo_error doc text_threshold pages
      ⟨p, hp, hout⟩
    exact ⟨e, he⟩
  · intro qs h0
    refine ⟨"page_numbers must not be empty", ?_⟩
    rw [extract_pages_range_to_base64_with_mapping]
    simp [h0]

/-- Witness for C7 at a two-page document with requested page 0 (the lower
boundary) and the empty selection `[]`. -/
theorem out_of_range_and_empty_errors_witness :
    (∃ e, extract_pages_range_to_base64_with_mapping
        ["alpha", "beta"].length [0] = .error e) ∧
    (∃ e, check_scanned_pages ["alpha", "beta"] (some [0]) 1 = .error e) ∧
    (∀ qs : List ℕ, uniquePages qs = [] →
      ∃ e, extract_pages_range_to_base64_with_mapping
        ["alpha", "beta"].length qs = .error e) :=
  out_of_range_and_empty_errors ["alpha", "beta"] [0] 0 1 (by decide)
    (by decide)

/-- C8: for in-range requested pages, the page-text prober marks a page
`true` (likely scanned, no usable text) exactly when the length of the
page's stripped text is strictly below the threshold; the default threshold
is 1, so a page is marked `false` exactly when it has any stripped text at
all. -/
theorem prober_threshold_iff (doc : List String) (pages : List ℕ)
    (text_threshold : ℕ) (h : ∀ pg ∈ pages, 1 ≤ pg ∧ pg ≤ doc.length) :
    (∃ r, check_scanned_pages doc (some pages) text_threshold = .ok r ∧
      ∀ pg b, (pg, b) ∈ r →
        (b = true ↔ (pageText doc pg).trim.length < text_threshold)) ∧
    default_text_threshold = 1 ∧
    (∃ r, check_scanned_pages doc (some pages) default_text_threshold
        = .ok r ∧
      ∀ pg b, (pg, b) ∈ r → (b = false ↔ (pageText doc pg).trim ≠ "")) := by
  refine ⟨?_, rfl, ?_⟩
  · refine ⟨_, checkScannedGo_ok doc text_threshold pages h, ?_⟩
    intro pg b hmem
    simp only [List.mem_map] at hmem
    obtain ⟨a, _, heq⟩ := hmem
    obtain ⟨rfl, rfl⟩ := Prod.mk.injEq .. ▸ heq
    simp
  · refine ⟨_, checkScannedGo_ok doc default_text_threshold pages h, ?_⟩
    intro pg b hmem
    simp only [List.mem_map] at hmem
    obtain ⟨a, _, heq⟩ := hmem
    obtain ⟨rfl, rfl⟩ := Prod.mk.injEq .. ▸ heq
    simp only [decide_eq_false_iff_not, not_lt, default_text_threshold]
    rw [Ne, string_eq_empty_iff_length (pageText doc a).trim]
    omega

/-- Witness for C8 at a three-page document whose second page is blank,
with threshold 2. -/
theorem prober_threshold_iff_witness :
    (∃ r, check_scanned_pages ["hello", "   ", "x"] (some [1, 2, 3]) 2
        = .ok r ∧
      ∀ pg b, (pg, b) ∈ r →
        (b = true ↔ (pageText ["hello", "   ", "x"] pg).trim.length < 2)) ∧
    default_text_threshold = 1 ∧
    (∃ r, check_scanned_pages ["hello", "   ", "x"] (some [1, 2, 3])
        default_text_threshold = .ok r ∧
      ∀ pg b, (pg, b) ∈ r →
        (b = false ↔ (pageText ["hello", "   ", "x"] pg).trim ≠ "")) :=
  prober_threshold_iff ["hello", "   ", "x"] [1, 2, 3] 2 (by decide)

/-- C2: after each call of the page-extraction tool, the active page set is
a superset of the previous one — merging newly requested pages never
shrinks the set — and for in-range requests the merge is exactly a set
union (so re-requesting pages already present is a no-op). The hypothesis
that the previous state only holds in-range pages is the invariant every
update of the source maintains. -/
theorem extraction_state_monotone (total_pages : ℕ) (pages_extracted : List ℕ)
    (page_numbers : Option (List ℕ)) (first_n_pages : Option ℕ)
    (hprev : ∀ p ∈ pages_extracted, 1 ≤ p ∧ p ≤ total_pages) :
    pages_extracted.toFinset ⊆
      (PDFPageExtractionTool_run total_pages pages_extracted page_numbers
          first_n_pages).toFinset ∧
    (∀ p ∈ PDFPageExtractionTool_run total_pages pages_extracted page_numbers
        first_n_pages, 1 ≤ p ∧ p ≤ total_pages) ∧
    (∀ ps, page_numbers = some ps → ps ≠ [] →
      (∀ p ∈ ps, 1 ≤ p ∧ p ≤ total_pages) →
      (PDFPageExtractionTool_run total_pages pages_extracted page_numbers
          first_n_pages).toFinset =
        pages_extracted.toFinset ∪ ps.toFinset) := by
  refine ⟨?_, ?_, ?_⟩
  · intro q hq
    rw [List.mem_toFinset] at hq
    by_cases hnil : allPagesToExtractList total_pages pages_extracted
        page_numbers first_n_pages = []
    · rw [PDFPageExtractionTool_run, if_pos hnil, List.mem_toFinset]
      exact hq
    · rw [PDFPageExtractionTool_run, if_neg hnil, List.mem_toFinset,
        List.mem_filter]
      refine ⟨?_, ?_⟩
      · rw [mem_allPagesToExtractList]
        exact Finset.mem_union_left _ (List.mem_toFinset.mpr hq)
      · exact decide_eq_true (hprev q hq)
  · intro q hq
    by_cases hnil : allPagesToExtractList total_pages pages_extracted
        page_numbers first_n_pages = []
    · rw [PDFPageExtractionTool_run, if_pos hnil] at hq
      exact hprev q hq
    · rw [PDFPageExtractionTool_run, if_neg hnil, List.mem_filter] at hq
      exact of_decide_eq_true hq.2
  · rintro ps rfl hne hval
    have hadd : pagesToAddThisRun total_pages pages_extracted.toFinset
        (some ps) (effFirstN (some ps) first_n_pages) = ps.toFinset := by
      rw [pagesToAddThisRun]
      simp [hne]
    obtain ⟨p0, hp0⟩ := List.exists_mem_of_ne_nil ps hne
    have hnil : allPagesToExtractList total_pages pages_extracted (some ps)
        first_n_pages ≠ [] := by
      intro h0
      have : p0 ∈ allPagesToExtractList total_pages pages_extracted (some ps)
          first_n_pages := by
        rw [mem_allPagesToExtractList, hadd]
        exact Finset.mem_union_right _ (List.mem_toFinset.mpr hp0)
      rw [h0] at this
      simp at this
    rw [PDFPageExtractionTool_run, if_neg hnil]
    ext q
    rw [List.mem_toFinset, List.mem_filter, mem_allPagesToExtractList, hadd]
    constructor
    · rintro ⟨hq, -⟩
      exact hq
    · intro hq
      refine ⟨hq, decide_eq_true ?_⟩
      rcases Finset.mem_union.mp hq with hq' | hq'
      · exact hprev q (List.mem_toFinset.mp hq')
      · exact hval q (List.mem_toFinset.mp hq')

/-- Witness for C2: previous state `[1, 2]`, requested pages `[2, 3]`,
ten-page document. -/
theorem extraction_state_monotone_witness :
    ([1, 2] : List ℕ).toFinset ⊆
      (PDFPageExtractionTool_run 10 [1, 2] (some [2, 3]) none).toFinset ∧
    (∀ p ∈ PDFPageExtractionTool_run 10 [1, 2] (some [2, 3]) none,
      1 ≤ p ∧ p ≤ 10) ∧
    (PDFPageExtractionTool_run 10 [1, 2] (some [2, 3]) none).toFinset =
      ([1, 2] : List ℕ).toFinset ∪ ([2, 3] : List ℕ).toFinset :=
  ⟨(extraction_state_monotone 10 [1, 2] (some [2, 3]) none (by decide)).1,
    (extraction_state_monotone 10 [1, 2] (some [2, 3]) none (by decide)).2.1,
    (extraction_state_monotone 10 [1, 2] (some [2, 3]) none (by decide)).2.2
      [2, 3] rfl (by decide) (by decide)⟩

/-- C4: for every run of the validation loop collecting a non-empty list of
per-model results, the aggregated overall result has `overall_valid` equal
to the conjunction of all per-model `is_valid` flags, `total_errors` and
`total_warnings` equal to the sums of the per-model error and warning
counts, and `average_confidence` equal to the arithmetic mean of the
per-model confidence scores. -/
theorem aggregation_overall_result
    (model_results : List (String × Option (Except String ValidationResult)))
    (h : collectValidationResults model_results ≠ []) :
    ∃ o, validate_extracted_data model_results = some o ∧
      o.validation_results = collectValidationResults model_results ∧
      (o.overall_valid = true ↔
        ∀ vr ∈ o.validation_results, vr.is_valid = true) ∧
      o.total_errors =
        (o.validation_results.map fun vr => vr.errors.length).sum ∧
      o.total_warnings =
        (o.validation_results.map fun vr => vr.warnings.length).sum ∧
      o.average_confidence =
        (o.validation_results.map fun vr => vr.confidence_score).sum /
          (o.validation_results.length : ℚ) := by
  have hne : (collectValidationResults model_results).isEmpty = false := by
    cases h0 : collectValidationResults model_results with
    | nil => exact absurd h0 h
    | cons a l => rfl
  have hval : validate_extracted_data model_results = some
      { validation_results := collectValidationResults model_results
        overall_valid :=
          (collectValidationResults model_results).all fun vr => vr.is_valid
        total_errors :=
          ((collectValidationResults model_results).map
            fun vr => vr.errors.length).sum
        total_warnings :=
          ((collectValidationResults model_results).map
            fun vr => vr.warnings.length).sum
        average_confidence :=
          ((collectValidationResults model_results).map
            fun vr => vr.confidence_score).sum /
              ((collectValidationResults model_results).length : ℚ) } := by
    rw [validate_extracted_data]
    simp only [hne, Bool.false_eq_true, if_false]
  exact ⟨_, hval, rfl, List.all_eq_true, rfl, rfl, rfl⟩

/-- Witness for C4 at a two-model batch: one valid result, one model whose
validation raised. -/
theorem aggregation_overall_result_witness :
    ∃ o, validate_extracted_data
        [("cash", some (.ok
            { model_name := "x", is_valid := true, errors := [],
              warnings := ["w"], confidence_score := 1, notes := none })),
         ("liab", some (.error "boom"))] = some o ∧
      o.validation_results = collectValidationResults
        [("cash", some (.ok
            { model_name := "x", is_valid := true, errors := [],
              warnings := ["w"], confidence_score := 1, notes := none })),
         ("liab", some (.error "boom"))] ∧
      (o.overall_valid = true ↔
        ∀ vr ∈ o.validation_results, vr.is_valid = true) ∧
      o.total_errors =
        (o.validation_results.map fun vr => vr.errors.length).sum ∧
      o.total_warnings =
        (o.validation_results.map fun vr => vr.warnings.length).sum ∧
      o.average_confidence =
        (o.validation_results.map fun vr => vr.confidence_score).sum /
          (o.validation_results.length : ℚ) :=
  aggregation_overall_result
    [("cash", some (.ok
        { model_name := "x", is_valid := true, errors := [],
          warnings := ["w"], confidence_score := 1, notes := none })),
     ("liab", some (.error "boom"))] (by decide)

/-- C9: when validating one model raises an error, the batch is not
aborted: a synthetic `ValidationResult` with `is_valid = false` and a
single system-error entry is appended in that model's place, and the
results of the models before and after it are collected unchanged. -/
theorem validation_error_continues
    (pre post : List (String × Option (Except String ValidationResult)))
    (name msg : String) :
    collectValidationResults (pre ++ (name, some (.error msg)) :: post) =
      collectValidationResults pre ++
        syntheticFailure name msg :: collectValidationResults post ∧
    (syntheticFailure name msg).is_valid = false ∧
    (syntheticFailure name msg).errors.length = 1 := by
  refine ⟨?_, rfl, rfl⟩
  rw [collect_append]
  rfl

/-- C5, counterexample: a legitimately absent LabeledValue field (`None`) is
not kept null — the validator of `BaseModelWithDefault` replaces it with
the default LabeledValue, contradicting the claim that the whole FieldValue
stays null rather than being replaced by a default value. -/
theorem absent_field_counterexample :
    replace_none_with_default true none = some make_default_lv ∧
    replace_none_with_default true none ≠ none := by
  constructor
  · rfl
  · intro h
    simp [replace_none_with_default] at h

/-- C5, amended: for every field processed by `BaseModelWithDefault`, a
`None` value of a LabeledValue-typed field is replaced by the fresh default
LabeledValue (value 0, empty and hence equal-length parallel
`source_page`/`source_label`, reason "default") rather than kept null;
`None` is kept only for non-LabeledValue fields; present values pass
through unchanged. -/
theorem absent_field_default (b : Bool) (x : LabeledValue) :
    replace_none_with_default true none = some make_default_lv ∧
    make_default_lv.value = 0 ∧
    make_default_lv.source_page = [] ∧
    make_default_lv.source_label = [] ∧
    make_default_lv.source_page.length = make_default_lv.source_label.length ∧
    make_default_lv.reason = "default" ∧
    replace_none_with_default false none = none ∧
    replace_none_with_default b (some x) = some x :=
  ⟨rfl, rfl, rfl, rfl, rfl, rfl, rfl, rfl⟩

/-- C10, counterexample: `convert_to_thousand` can return the value
unchanged although the unit flag is not exactly True — at `v = 0` with flag
False the result `0 / 1000` is again `0` — so "returns v unchanged only if
the flag is exactly True" fails. -/
theorem convert_unchanged_counterexample :
    convert_to_thousand (some 0) (some false) = some 0 ∧
    (some false : Option Bool) ≠ some true := by
  constructor
  · show (if (some false : Option Bool) = some true then some (0 : ℚ)
        else some (0 / 1000 : ℚ)) = some 0
    norm_num
  · decide

/-- C10, amended: `convert_to_thousand` returns None when the value is
None; returns the value by the unchanged branch when the unit flag is
exactly True; and in every other case — flag False or flag None (unknown)
— returns the value divided by 1000, so an unknown unit flag is treated
like "unit is yuan" (the result coincides with the unchanged value only in
the degenerate case v = 0). -/
theorem convert_to_thousand_cases (v : ℚ) (f : Option Bool) :
    convert_to_thousand none f = none ∧
    convert_to_thousand (some v) (some true) = some v ∧
    (f ≠ some true → convert_to_thousand (some v) f = some (v / 1000)) := by
  refine ⟨rfl, ?_, ?_⟩
  · show (if (some true : Option Bool) = some true then some v
        else some (v / 1000)) = some v
    rw [if_pos rfl]
  · intro hf
    show (if f = some true then some v else some (v / 1000)) = some (v / 1000)
    rw [if_neg hf]

/-- Witness for the amended C10 at `v = 2` with flags True, False and
None. -/
theorem convert_to_thousand_cases_witness :
    convert_to_thousand none none = none ∧
    convert_to_thousand (some 2) (some true) = some 2 ∧
    convert_to_thousand (some 2) (some false) = some (2 / 1000) ∧
    convert_to_thousand (some 2) none = some (2 / 1000) :=
  ⟨(convert_to_thousand_cases 2 none).1,
    (convert_to_thousand_cases 2 (some true)).2.1,
    (convert_to_thousand_cases 2 (some false)).2.2 (by decide),
    (convert_to_thousand_cases 2 none).2.2 (by decide)⟩

/-- C6, counterexample: a model whose required statement is reported
`found = false` is not skipped — in the two-model run below the first model
requires the absent "important_accounting_items", yet its extraction is
still executed and returns a parsed result (`some 7`), contradicting
"skipped with a warning rather than executed". -/
theorem missing_statement_not_skipped_counterexample :
    missingStatements analysisMissingItems
        ["individual_balance_sheet", "important_accounting_items"] =
      ["important_accounting_items"] ∧
    process_financial_models analysisMissingItems true geminiAlwaysOk
        configTwoModels =
      some [("cash_and_equivalents", ["important_accounting_items"], some 7),
        ("total_liabilities", [], some 7)] := by
  decide

/-- C6, amended: a model whose required statement is reported
`found = false` is not skipped: the missing statements are recorded in a
warning and its extraction is still attempted; every configured model
receives an entry in the run's result map (with `None` when its extraction
raises), so the run does not fail and all other models keep their
entries. -/
theorem missing_statement_still_processed {α : Type}
    (analysis : String → StatementInfo) (gemini : String → Except String α)
    (models_config : List (String × List String))
    (h : relevantPages analysis models_config ≠ ∅) :
    process_financial_models analysis true gemini models_config =
      some (models_config.map fun m =>
        (m.1, missingStatements analysis m.2,
          match gemini m.1 with
          | .ok r => some r
          | .error _ => none)) := by
  rw [process_financial_models, if_neg h, processModelsLoop_clientOk]

/-- Witness for the amended C6 at the two-model run with the absent
important accounting items. -/
theorem missing_statement_still_processed_witness :
    process_financial_models analysisMissingItems true geminiAlwaysOk
        configTwoModels =
      some (configTwoModels.map fun m =>
        (m.1, missingStatements analysisMissingItems m.2,
          match geminiAlwaysOk m.1 with
          | .ok r => some r
          | .error _ => none)) :=
  missing_statement_still_processed analysisMissingItems geminiAlwaysOk
    configTwoModels (by decide)

/-- C3: the reference-discovery-and-expansion loop always terminates within
the retry budget: it performs at most `budget` expansion rounds, it ends
flagged complete only when the extractor reported `is_complete = true` on
the final page set, and when it ends flagged incomplete the whole budget
was exhausted and the current page set is accepted as-is; the active page
set only ever grows. -/
theorem expansion_loop_terminates (extract : Finset ℕ → ExtractionRound)
    (budget : ℕ) (pages : Finset ℕ) :
    (referenceExpansionLoop extract budget pages).2.2 ≤ budget ∧
    ((referenceExpansionLoop extract budget pages).2.1 = true →
      (extract (referenceExpansionLoop extract budget pages).1).is_complete
        = true) ∧
    ((referenceExpansionLoop extract budget pages).2.1 = false →
      (referenceExpansionLoop extract budget pages).2.2 = budget) ∧
    pages ⊆ (referenceExpansionLoop extract budget pages).1 := by
  induction budget generalizing pages with
  | zero =>
      rw [referenceExpansionLoop]
      by_cases hc : (extract pages).is_complete
      · simp [hc]
      · simp [hc]
  | succ b ih =>
      rw [referenceExpansionLoop]
      by_cases hc : (extract pages).is_complete
      · simp [hc]
      · simp only [hc, Bool.false_eq_true, if_false]
        obtain ⟨h1, h2, h3, h4⟩ :=
          ih (pages ∪ (extract pages).referenced_pages)
        refine ⟨by omega, h2, fun hf => by rw [h3 hf], ?_⟩
        exact le_trans Finset.subset_union_left h4

/-- Witness for C3: an extractor that never completes, budget 3, starting
from page set `{1}`: the loop stops after exactly 3 expansion rounds,
flagged incomplete. -/
theorem expansion_loop_terminates_witness :
    (referenceExpansionLoop extractNeverDone 3 {1}).2.2 ≤ 3 ∧
    (referenceExpansionLoop extractNeverDone 3 {1}).2.2 = 3 ∧
    ({1} : Finset ℕ) ⊆ (referenceExpansionLoop extractNeverDone 3 {1}).1 :=
  ⟨(expansion_loop_terminates extractNeverDone 3 {1}).1,
    (expansion_loop_terminates extractNeverDone 3 {1}).2.2.1 (by decide),
    (expansion_loop_terminates extractNeverDone 3 {1}).2.2.2⟩

end FinReport
